import Mathlib

/-!
# Verification of the strand_sandbox concurrency core

Shallow embedding of the repository's C++ sources:

* `src/Monitor.h`   — a mutex-protected transactional cell `Monitor<T>`; its
  `operator()(f)` runs `f` on the protected value under the lock.  In the
  embedding every such call becomes one pure "transaction" function on the
  protected state, reflecting that the lock makes the body atomic.
* `src/WorkQueue.h` — a multi-producer/multi-consumer FIFO of
  `std::function<void()>` items with a blocking consumer loop `run()`,
  `push`, `stop` (pushes a null item as shutdown marker) and `canDispatch`.
* `src/Strand.h`    — `Strand<Processor>`: `dispatch`, `post`,
  `runningInThisThread`, and the private drain loop `run()`, over
  `Data { bool running; std::queue<std::function<void()>> q; }`.
* `Callstack.h`     — included by `Strand.h` and `WorkQueue.h` but not
  present under `src/`; modelled from the spec (§4.2 CallContextRegistry).

Handlers and work items are `std::function<void()>`; the embedding gives
them identities (`Nat`) and models the distinguished empty/null callable as
`Option.none`, because both `Strand::run` and `WorkQueue::run` branch on the
truthiness of the popped item.

Two layers:
1. pure functions for the per-call behaviour of `dispatch` / `post` /
   the drain loop / the work queue, used for the functional claims;
2. an interleaving transition system (`Sched`) for one strand shared by
   arbitrarily many threads, used for the mutual-exclusion and
   assertion-safety claims.
-/

namespace StrandSandbox

namespace Callstack

/-- Modelled from the spec: `Callstack.h` is included by `Strand.h` and
`WorkQueue.h` but is missing from `src/`.  Spec §4.2 (CallContextRegistry):
a per-thread, per-tag stack of currently active instance identities;
`contains(identity)` is true iff `identity` is anywhere on the current
thread's stack for that tag.  A thread's stack for one tag is a `List Nat`
of instance identities, most recent first. -/
def contains (stack : List Nat) (inst : Nat) : Bool :=
  stack.contains inst

/-- Modelled from the spec: the scoped `Callstack<T>::Context` guard pushes
the instance identity on entry (and pops it again when the scope exits). -/
def enter (inst : Nat) (stack : List Nat) : List Nat :=
  inst :: stack

end Callstack

namespace WorkQueue

/-- A work item (`std::function<void()>`): `some i` is a real callable with
identity `i`, `none` is the empty/null function used as shutdown marker. -/
abbrev Item := Option Nat

/-- `WorkQueue::push` (WorkQueue.h): enqueue the item at the back of the
FIFO (the lock and `notify_all` have no observable effect on the queue
contents). -/
def push (w : Item) (q : List Item) : List Item :=
  q ++ [w]

/-- `WorkQueue::run` (WorkQueue.h): the consumer loop, modelled for a single
consumer against the queue contents it will observe.  Each iteration pops
the front item; a real item is executed (its identity is appended to the
trace) and the loop continues; a null item makes the loop `push(nullptr)`
and return.  The result is `some (trace, remaining queue)` when the loop
returns; `none` models the loop blocking forever on the condition variable
because the queue ran dry. -/
def run : List Item → Option (List Nat × List Item)
  | [] => none
  | none :: rest => some ([], push none rest)
  | some i :: rest => (run rest).map fun t => (i :: t.1, t.2)

/-- `WorkQueue::stop` (WorkQueue.h): `push(nullptr)`. -/
def stop (q : List Item) : List Item :=
  push none q

/-- `WorkQueue::canDispatch` (WorkQueue.h):
`Callstack<WorkQueue>::contains(this) != nullptr` — true iff this instance
is on the calling thread's work-queue call stack. -/
def canDispatch (stack : List Nat) (self : Nat) : Bool :=
  Callstack.contains stack self

end WorkQueue

namespace Strand

/-- A strand handler (`std::function<void()>`): `some i` is a real callable
with identity `i`; `none` is an empty/null `std::function`. -/
abbrev Handler := Option Nat

/-- `Strand::Data` (Strand.h): the state protected by the `Monitor` cell —
the running flag and the FIFO of pending handlers (front of the
`std::queue` is the head of the list). -/
structure Data where
  running : Bool
  q : List Handler
  deriving DecidableEq

/-- The state-cell transaction inside `Strand::dispatch` (Strand.h, the
lambda passed to `m_data`): if `running` then push the handler and report
`false` (no trigger); else set `running` and report `true` (ownership
claimed).  Returns (trigger, new cell state). -/
def dispatchTx (handler : Handler) (d : Data) : Bool × Data :=
  if d.running then (false, { d with q := d.q ++ [handler] })
  else (true, { d with running := true })

/-- The state-cell transaction inside `Strand::post` (Strand.h): push the
handler unconditionally, then if `running` report `false`, else set
`running` and report `true`.  Enqueue and read-and-set of `running` happen
in this single transaction.  Returns (trigger, new cell state). -/
def postTx (handler : Handler) (d : Data) : Bool × Data :=
  let d1 : Data := { d with q := d.q ++ [handler] }
  if d1.running then (false, d1) else (true, { d1 with running := true })

/-- The state-cell transaction of one iteration of `Strand::run`
(Strand.h): the local `std::function<void()> handler` starts out null; if
the queue is non-empty the front is moved into it and popped, otherwise
`running` is cleared.  (The body also executes `assert(data.running)`; the
assertion is analysed in the `Sched` model below.)  Returns the value of
the local `handler` after the transaction together with the new cell
state. -/
def runTx (d : Data) : Handler × Data :=
  match d.q with
  | [] => (none, { d with running := false })
  | h :: rest => (h, { d with q := rest })

/-- The loop of `Strand::run` (Strand.h), unrolled over the queue contents:
each iteration performs `runTx` and then, outside the lock, executes the
popped handler if it is non-null (`if (handler) handler(); else return;`).
Arguments are the queue and running flag of the cell; the result is the
trace of executed handler identities and the final cell state.  Note a
popped null handler makes the loop return without touching `running`. -/
def runFrom : List Handler → Bool → List Nat × Data
  | [], _ => ([], ⟨false, []⟩)
  | none :: rest, r => ([], ⟨r, rest⟩)
  | some i :: rest, r =>
    let t := runFrom rest r
    (i :: t.1, t.2)

/-- `Strand::run` (Strand.h) on a cell state, assuming no interference from
other threads while draining (interference is covered by the `Sched`
model). -/
def run (d : Data) : List Nat × Data :=
  runFrom d.q d.running

/-- What one public `Strand` call did: the identities of handlers it
executed synchronously (in order), whether it entered the strand's call
context (`Callstack<Strand>::Context`), whether it pushed a drain task to
the processor (`m_proc.push`), and the final cell state. -/
structure DispatchResult where
  executed : List Nat
  enteredCtx : Bool
  pushedDrain : Bool
  data : Data
  deriving DecidableEq

/-- Synchronous execution of one handler: the trace it contributes.
(Invoking an empty `std::function` would throw `bad_function_call`; no
claim exercises that path, and the model records no execution for it.) -/
def execOne : Handler → List Nat
  | some i => [i]
  | none => []

/-- `Strand::post` (Strand.h): run `postTx`; if it reported a trigger, push
a drain task to the processor.  The handler is never executed as part of
this call. -/
def post (handler : Handler) (d : Data) : DispatchResult :=
  let r := postTx handler d
  ⟨[], false, r.1, r.2⟩

/-- `Strand::runningInThisThread` (Strand.h):
`Callstack<Strand>::contains(this) != nullptr` over the calling thread's
strand call stack. -/
def runningInThisThread (strandStack : List Nat) (self : Nat) : Bool :=
  Callstack.contains strandStack self

/-- `Strand::dispatch` (Strand.h).  `procStack`/`strandStack` are the
calling thread's registry stacks for the work-queue and strand tags,
`procId` is the bound processor's identity and `self` this strand's
identity.  Mirrors the source: (1) if `!m_proc.canDispatch()`, defer to
`post`; (2) else if `runningInThisThread()`, execute the handler inline and
return, without touching the cell; (3) else run `dispatchTx`, and on a
trigger enter the strand's call context, execute the handler inline, and
drain via `run`. -/
def dispatch (procStack strandStack : List Nat) (procId self : Nat)
    (handler : Handler) (d : Data) : DispatchResult :=
  if !(WorkQueue.canDispatch procStack procId) then post handler d
  else if runningInThisThread strandStack self then
    ⟨execOne handler, false, false, d⟩
  else
    let r := dispatchTx handler d
    if r.1 then
      let t := run r.2
      ⟨execOne handler ++ t.1, true, false, t.2⟩
    else ⟨[], false, false, r.2⟩

/-- The state-shape invariant of the cell (spec §4.4 state machine): when
the strand is not running, its pending queue is empty. -/
def StateInv (d : Data) : Prop :=
  d.running = false → d.q = []

end Strand

namespace Sched

/-!
Interleaving semantics for one `Strand` instance shared by arbitrarily many
threads (identified by `Nat`).  Each transition is one atomic step a thread
can take against the strand: either a state-cell transaction of
`Strand::dispatch` / `Strand::post` / `Strand::run` (atomic because the
`Monitor` holds its mutex for the whole lambda), or the begin/end of a
handler execution.

A thread's `Phase` abstracts the per-thread call-context registry
(`Callstack.h` is not under `src/`; spec §4.2): any phase other than
`outside` means this strand's identity is on the thread's strand call
stack, so `runningInThisThread()` is true for it — which is why the
dispatch transitions that reach the state cell require `outside`.  A
reentrant `dispatch` from a thread in `inlineExec`/`handlerExec` executes
its handler synchronously without touching any shared state, so it needs no
transition of its own.

The straight-line windows of the source in which a thread has claimed
`running` but has not yet pushed the call context (between the transaction
and the `Callstack<Strand>::Context` constructor, and between the executor
popping a drain task and `run()` pushing the context) contain no strand
operations by that thread, so claiming and entering the context are one
step here.

`W t = true` means thread `t` is inside the bound executor's `run()` loop
(`canDispatch()`); `post` transitions carry no such guard because `post`
may be called from any thread.
-/

/-- Where a thread stands with respect to the strand: not engaged; executing
the `dispatch` argument inline after claiming ownership (Strand.h trigger
branch); inside the drain loop of `Strand::run` between transactions; or
executing a handler popped by the drain loop. -/
inductive Phase where
  | outside
  | inlineExec
  | drainLoop
  | handlerExec
  deriving DecidableEq

/-- Global state: the strand's cell (`running` and the pending queue, each
queued handler abstracted to whether it is a real callable (`true`) or an
empty `std::function` (`false`)), the number of drain tasks pushed to the
executor by `post` and not yet picked up, and every thread's phase. -/
structure S where
  running : Bool
  q : List Bool
  drainTasks : Nat
  phase : Nat → Phase

/-- Pointwise update of a phase assignment. -/
def upd (f : Nat → Phase) (t : Nat) (p : Phase) : Nat → Phase :=
  fun u => if u = t then p else f u

/-- One atomic step by some thread against the strand.  Constructors are
named after the source path they embed (Strand.h unless noted). -/
inductive Step (W : Nat → Bool) : S → S → Prop where
  /-- `post` transaction, `running` already true: enqueue only. -/
  | postNoTrig (s : S) (b : Bool) : s.running = true →
      Step W s { s with q := s.q ++ [b] }
  /-- `post` transaction, `running` false: enqueue, set `running`, and push
  a drain task (`m_proc.push([this]{ run(); })`) to the executor. -/
  | postTrig (s : S) (b : Bool) : s.running = false →
      Step W s { s with running := true, q := s.q ++ [b],
                        drainTasks := s.drainTasks + 1 }
  /-- `dispatch` transaction from a worker thread not in this strand's
  context, `running` true: enqueue and return. -/
  | dispatchEnqueue (s : S) (t : Nat) (b : Bool) :
      W t = true → s.phase t = Phase.outside → s.running = true →
      Step W s { s with q := s.q ++ [b] }
  /-- `dispatch` transaction from a worker thread not in this strand's
  context, `running` false: claim ownership, enter the strand context and
  start executing the argument inline. -/
  | dispatchClaim (s : S) (t : Nat) :
      W t = true → s.phase t = Phase.outside → s.running = false →
      Step W s { s with running := true, phase := upd s.phase t Phase.inlineExec }
  /-- The inline handler of the `dispatch` trigger branch returned; the
  thread proceeds into `run()`. -/
  | inlineDone (s : S) (t : Nat) : s.phase t = Phase.inlineExec →
      Step W s { s with phase := upd s.phase t Phase.drainLoop }
  /-- A worker thread pops a pending drain task from the executor queue and
  enters `Strand::run` (WorkQueue.h consumer loop executing the task that
  `post` pushed). -/
  | startDrain (s : S) (t : Nat) :
      W t = true → s.phase t = Phase.outside → s.drainTasks ≠ 0 →
      Step W s { s with drainTasks := s.drainTasks - 1,
                        phase := upd s.phase t Phase.drainLoop }
  /-- Drain-loop transaction, queue non-empty with a real callable in
  front: pop it and start executing it outside the lock. -/
  | runPop (s : S) (t : Nat) (rest : List Bool) :
      s.phase t = Phase.drainLoop → s.q = true :: rest →
      Step W s { s with q := rest, phase := upd s.phase t Phase.handlerExec }
  /-- Drain-loop transaction, queue non-empty with an empty callable in
  front: pop it; `if (handler)` is false so `run` returns, leaving
  `running` set. -/
  | runPopNull (s : S) (t : Nat) (rest : List Bool) :
      s.phase t = Phase.drainLoop → s.q = false :: rest →
      Step W s { s with q := rest, phase := upd s.phase t Phase.outside }
  /-- A handler popped by the drain loop returned; back to the loop. -/
  | handlerDone (s : S) (t : Nat) : s.phase t = Phase.handlerExec →
      Step W s { s with phase := upd s.phase t Phase.drainLoop }
  /-- Drain-loop transaction, queue empty: clear `running` and return. -/
  | runEmpty (s : S) (t : Nat) :
      s.phase t = Phase.drainLoop → s.q = [] →
      Step W s { s with running := false, phase := upd s.phase t Phase.outside }

/-- The initial state of a freshly constructed strand: not running, no
pending handlers, no drain tasks, no thread engaged. -/
def init : S :=
  ⟨false, [], 0, fun _ => Phase.outside⟩

/-- States reachable from `init` by interleaved steps. -/
inductive Reach (W : Nat → Bool) : S → Prop where
  | init : Reach W init
  | step {s s2 : S} : Reach W s → Step W s s2 → Reach W s2

/-- Thread `t` is currently executing a handler of the strand. -/
def Executing (s : S) (t : Nat) : Prop :=
  s.phase t = Phase.inlineExec ∨ s.phase t = Phase.handlerExec

/-- The inductive invariant: an idle strand has nothing pending and nobody
engaged; at most one drain task is ever outstanding; a drain task is
outstanding only while no thread is engaged; and at most one thread is
engaged at a time. -/
structure Inv (s : S) : Prop where
  idle : s.running = false →
    s.q = [] ∧ s.drainTasks = 0 ∧ ∀ t, s.phase t = Phase.outside
  tasksLe : s.drainTasks ≤ 1
  engagedTasks : ∀ t, s.phase t ≠ Phase.outside → s.drainTasks = 0
  engagedUnique : ∀ t u, s.phase t ≠ Phase.outside →
    s.phase u ≠ Phase.outside → t = u

end Sched

/-! ## Helper lemmas -/

/-- Unfolding a pointwise phase update at the updated thread. -/
theorem upd_self (f : Nat → Sched.Phase) (t : Nat) (p : Sched.Phase) :
    Sched.upd f t p t = p := by
  simp [Sched.upd]

/-- Unfolding a pointwise phase update away from the updated thread. -/
theorem upd_ne (f : Nat → Sched.Phase) (t : Nat) (p : Sched.Phase) {u : Nat}
    (h : u ≠ t) : Sched.upd f t p u = f u := by
  simp [Sched.upd, h]

/-- A thread engaged after a phase update is the updated thread or was
already engaged. -/
theorem engaged_upd {f : Nat → Sched.Phase} {t u : Nat} {p : Sched.Phase}
    (h : Sched.upd f t p u ≠ Sched.Phase.outside) :
    u = t ∨ f u ≠ Sched.Phase.outside := by
  by_cases hu : u = t
  · exact Or.inl hu
  · right
    simp only [Sched.upd, if_neg hu] at h
    exact h

/-- Under the invariant, any engaged thread implies the strand is marked
running. -/
theorem running_true_of_engaged {s : Sched.S} (hInv : Sched.Inv s) {t : Nat}
    (ht : s.phase t ≠ Sched.Phase.outside) : s.running = true := by
  cases hr : s.running with
  | false => exact absurd ((hInv.idle hr).2.2 t) ht
  | true => rfl

/-- The initial strand state satisfies the invariant. -/
theorem inv_init : Sched.Inv Sched.init :=
  ⟨fun _ => ⟨rfl, rfl, fun _ => rfl⟩, Nat.zero_le 1,
   fun _ ht => absurd rfl ht, fun _ _ ht _ => absurd rfl ht⟩

/-- Every step of the interleaving semantics preserves the invariant. -/
theorem inv_step {W : Nat → Bool} {s s2 : Sched.S} (hInv : Sched.Inv s)
    (h : Sched.Step W s s2) : Sched.Inv s2 := by
  cases h with
  | postNoTrig b hrun =>
    exact ⟨fun hf => absurd (hrun.symm.trans hf) (by decide),
           hInv.tasksLe, hInv.engagedTasks, hInv.engagedUnique⟩
  | postTrig b hrun =>
    obtain ⟨hq, hdt, hout⟩ := hInv.idle hrun
    refine ⟨fun hf => absurd hf (by simp), by simp [hdt],
            fun t ht => absurd (hout t) ht,
            fun t u ht _ => absurd (hout t) ht⟩
  | dispatchEnqueue t b hW hph hrun =>
    exact ⟨fun hf => absurd (hrun.symm.trans hf) (by decide),
           hInv.tasksLe, hInv.engagedTasks, hInv.engagedUnique⟩
  | dispatchClaim t hW hph hrun =>
    obtain ⟨hq, hdt, hout⟩ := hInv.idle hrun
    refine ⟨fun hf => absurd hf (by simp), hInv.tasksLe,
            fun u _ => hdt, fun u v hu hv => ?_⟩
    rcases engaged_upd hu with h1 | h1
    · rcases engaged_upd hv with h2 | h2
      · exact h1.trans h2.symm
      · exact absurd (hout v) h2
    · exact absurd (hout u) h1
  | inlineDone t hph =>
    have hten : s.phase t ≠ Sched.Phase.outside := by rw [hph]; decide
    have hr : s.running = true := running_true_of_engaged hInv hten
    refine ⟨fun hf => absurd (hr.symm.trans hf) (by decide), hInv.tasksLe,
            fun u hu => ?_, fun u v hu hv => ?_⟩
    · rcases engaged_upd hu with h1 | h1
      · exact hInv.engagedTasks t hten
      · exact hInv.engagedTasks u h1
    · rcases engaged_upd hu with h1 | h1
      · rcases engaged_upd hv with h2 | h2
        · exact h1.trans h2.symm
        · exact h1.trans (hInv.engagedUnique v t h2 hten).symm
      · rcases engaged_upd hv with h2 | h2
        · exact (hInv.engagedUnique u t h1 hten).trans h2.symm
        · exact hInv.engagedUnique u v h1 h2
  | startDrain t hW hph hdt =>
    have hone : s.drainTasks = 1 :=
      Nat.le_antisymm hInv.tasksLe (Nat.one_le_iff_ne_zero.mpr hdt)
    have hout : ∀ u, s.phase u = Sched.Phase.outside := by
      intro u
      by_cases h2 : s.phase u = Sched.Phase.outside
      · exact h2
      · exact absurd (hInv.engagedTasks u h2) hdt
    have hr : s.running = true := by
      cases hr2 : s.running with
      | false => exact absurd (hInv.idle hr2).2.1 hdt
      | true => rfl
    refine ⟨fun hf => absurd (hr.symm.trans hf) (by decide), by simp [hone],
            fun u _ => by simp [hone], fun u v hu hv => ?_⟩
    rcases engaged_upd hu with h1 | h1
    · rcases engaged_upd hv with h2 | h2
      · exact h1.trans h2.symm
      · exact absurd (hout v) h2
    · exact absurd (hout u) h1
  | runPop t rest hph hqe =>
    have hten : s.phase t ≠ Sched.Phase.outside := by rw [hph]; decide
    have hr : s.running = true := running_true_of_engaged hInv hten
    refine ⟨fun hf => absurd (hr.symm.trans hf) (by decide), hInv.tasksLe,
            fun u hu => ?_, fun u v hu hv => ?_⟩
    · rcases engaged_upd hu with h1 | h1
      · exact hInv.engagedTasks t hten
      · exact hInv.engagedTasks u h1
    · rcases engaged_upd hu with h1 | h1
      · rcases engaged_upd hv with h2 | h2
        · exact h1.trans h2.symm
        · exact h1.trans (hInv.engagedUnique v t h2 hten).symm
      · rcases engaged_upd hv with h2 | h2
        · exact (hInv.engagedUnique u t h1 hten).trans h2.symm
        · exact hInv.engagedUnique u v h1 h2
  | runPopNull t rest hph hqe =>
    have hten : s.phase t ≠ Sched.Phase.outside := by rw [hph]; decide
    have hr : s.running = true := running_true_of_engaged hInv hten
    refine ⟨fun hf => absurd (hr.symm.trans hf) (by decide), hInv.tasksLe,
            fun u hu => ?_, fun u v hu hv => ?_⟩
    · rcases engaged_upd hu with h1 | h1
      · rw [h1] at hu
        exact absurd (upd_self s.phase t Sched.Phase.outside) hu
      · exact hInv.engagedTasks u h1
    · rcases engaged_upd hu with h1 | h1
      · rw [h1] at hu
        exact absurd (upd_self s.phase t Sched.Phase.outside) hu
      · rcases engaged_upd hv with h2 | h2
        · rw [h2] at hv
          exact absurd (upd_self s.phase t Sched.Phase.outside) hv
        · exact hInv.engagedUnique u v h1 h2
  | handlerDone t hph =>
    have hten : s.phase t ≠ Sched.Phase.outside := by rw [hph]; decide
    have hr : s.running = true := running_true_of_engaged hInv hten
    refine ⟨fun hf => absurd (hr.symm.trans hf) (by decide), hInv.tasksLe,
            fun u hu => ?_, fun u v hu hv => ?_⟩
    · rcases engaged_upd hu with h1 | h1
      · exact hInv.engagedTasks t hten
      · exact hInv.engagedTasks u h1
    · rcases engaged_upd hu with h1 | h1
      · rcases engaged_upd hv with h2 | h2
        · exact h1.trans h2.symm
        · exact h1.trans (hInv.engagedUnique v t h2 hten).symm
      · rcases engaged_upd hv with h2 | h2
        · exact (hInv.engagedUnique u t h1 hten).trans h2.symm
        · exact hInv.engagedUnique u v h1 h2
  | runEmpty t hph hq =>
    have hten : s.phase t ≠ Sched.Phase.outside := by rw [hph]; decide
    refine ⟨fun _ => ⟨hq, hInv.engagedTasks t hten, fun u => ?_⟩,
            hInv.tasksLe, fun u hu => ?_, fun u v hu hv => ?_⟩
    · by_cases h2 : u = t
      · rw [h2]
        show Sched.upd s.phase t Sched.Phase.outside t = Sched.Phase.outside
        exact upd_self s.phase t Sched.Phase.outside
      · show Sched.upd s.phase t Sched.Phase.outside u = Sched.Phase.outside
        rw [upd_ne s.phase t Sched.Phase.outside h2]
        by_contra h3
        exact h2 (hInv.engagedUnique u t h3 hten)
    · rcases engaged_upd hu with h1 | h1
      · rw [h1] at hu
        exact absurd (upd_self s.phase t Sched.Phase.outside) hu
      · exact hInv.engagedTasks u h1
    · rcases engaged_upd hu with h1 | h1
      · rw [h1] at hu
        exact absurd (upd_self s.phase t Sched.Phase.outside) hu
      · rcases engaged_upd hv with h2 | h2
        · rw [h2] at hv
          exact absurd (upd_self s.phase t Sched.Phase.outside) hv
        · exact hInv.engagedUnique u v h1 h2

/-- Every reachable state of the interleaving semantics satisfies the
invariant. -/
theorem reach_inv {W : Nat → Bool} {s : Sched.S} (h : Sched.Reach W s) :
    Sched.Inv s := by
  induction h with
  | init => exact inv_init
  | step _ hstep ih => exact inv_step ih hstep

/-- Drain of a queue containing no empty callables: every item is executed
in order and the final cell is idle. -/
theorem runFrom_no_null (l : List Strand.Handler) (r : Bool)
    (hnn : (none : Strand.Handler) ∉ l) :
    Strand.runFrom l r = (l.reduceOption, ⟨false, []⟩) := by
  induction l with
  | nil => simp [Strand.runFrom]
  | cons h rest ih =>
    cases h with
    | none => exact absurd (List.mem_cons_self none rest) hnn
    | some i =>
      have h2 : (none : Strand.Handler) ∉ rest :=
        fun hm => hnn (List.mem_cons_of_mem _ hm)
      simp [Strand.runFrom, ih h2]

/-! ## Claim theorems -/

/-- Claim C1: for every strand, no two handlers submitted to it via any mix
of dispatch and post ever execute concurrently: in every reachable state of
the interleaving semantics, any two threads currently executing a handler
of the strand are the same thread, and a handler executes only while the
strand is marked running (its thread holds ownership). -/
theorem strand_handlers_never_concurrent (W : Nat → Bool) (s : Sched.S)
    (t u : Nat) (hs : Sched.Reach W s) (ht : Sched.Executing s t)
    (hu : Sched.Executing s u) : t = u ∧ s.running = true := by
  have hInv := reach_inv hs
  have hten : s.phase t ≠ Sched.Phase.outside := by
    rcases ht with h | h <;> rw [h] <;> decide
  have huen : s.phase u ≠ Sched.Phase.outside := by
    rcases hu with h | h <;> rw [h] <;> decide
  exact ⟨hInv.engagedUnique t u hten huen, running_true_of_engaged hInv hten⟩

/-- Witness for C1: in the reachable state where worker thread 0 has just
claimed the idle strand via dispatch, it is the unique executing thread and
the strand is marked running. -/
theorem strand_handlers_never_concurrent_witness :
    (0 : Nat) = 0 ∧
      ({ Sched.init with
          running := true,
          phase := Sched.upd Sched.init.phase 0 Sched.Phase.inlineExec } :
        Sched.S).running = true :=
  strand_handlers_never_concurrent (fun _ => true) _ 0 0
    (Sched.Reach.step Sched.Reach.init
      (Sched.Step.dispatchClaim Sched.init 0 rfl rfl rfl))
    (Or.inl (upd_self Sched.init.phase 0 Sched.Phase.inlineExec))
    (Or.inl (upd_self Sched.init.phase 0 Sched.Phase.inlineExec))

/-- Claim C2: for a dispatch call from a thread inside the bound executor's
run loop (canDispatch true) that does not own the strand
(runningInThisThread false), the claim step is the single state-cell
transaction dispatchTx: if running is false it is set true and the caller
enters the strand's call context, executes the handler inline and drains
the queue; if running is already true the handler is enqueued and dispatch
returns without executing it. -/
theorem dispatch_claim_transaction (ps ss : List Nat) (pid sid : Nat)
    (h : Strand.Handler) (d : Strand.Data)
    (hcd : WorkQueue.canDispatch ps pid = true)
    (hown : Strand.runningInThisThread ss sid = false) :
    (d.running = false →
      Strand.dispatch ps ss pid sid h d =
        ⟨Strand.execOne h ++ (Strand.run { d with running := true }).1, true,
         false, (Strand.run { d with running := true }).2⟩)
    ∧ (d.running = true →
      Strand.dispatch ps ss pid sid h d =
        ⟨[], false, false, { d with q := d.q ++ [h] }⟩) := by
  constructor
  · intro hrun
    simp [Strand.dispatch, hcd, hown, Strand.dispatchTx, hrun]
  · intro hrun
    simp [Strand.dispatch, hcd, hown, Strand.dispatchTx, hrun]

/-- Witness for C2: a worker thread dispatching to an idle strand runs the
handler inline, enters the context, and leaves the strand idle again. -/
theorem dispatch_claim_transaction_witness :
    Strand.dispatch [7] [] 7 3 (some 1) ⟨false, []⟩ =
      ⟨[1], true, false, ⟨false, []⟩⟩ :=
  (dispatch_claim_transaction [7] [] 7 3 (some 1) ⟨false, []⟩ rfl rfl).1 rfl

/-- Claim C3: post always enqueues the handler in the same atomic
transaction that reads and sets the running flag, never executes it as part
of the call, and a drain task is pushed to the executor exactly when that
transaction moved running from false to true. -/
theorem post_always_enqueues (h : Strand.Handler) (d : Strand.Data) :
    (Strand.post h d).executed = []
    ∧ (Strand.post h d).data.q = d.q ++ [h]
    ∧ (Strand.post h d).data.running = true
    ∧ (Strand.post h d).pushedDrain = !d.running := by
  cases hr : d.running <;> simp [Strand.post, Strand.postTx, hr]

/-- Counterexample to claim C4 as stated: with an empty std::function at
the front of the queue, the drain pops it, executes nothing, and returns
while running is still true, leaving the later-queued handler behind. -/
theorem drain_null_counterexample :
    Strand.run ⟨true, [none, some 0]⟩ = ([], ⟨true, [some 0]⟩)
    ∧ ¬((Strand.run ⟨true, [none, some 0]⟩).2.running = false
        ∧ (Strand.run ⟨true, [none, some 0]⟩).2.q = []) := by
  decide

/-- Claim C4 (amended): each drain-loop iteration is one state-cell
transaction — a non-empty queue pops the front, an empty queue clears
running and returns — and provided no queued item is an empty callable,
every popped item is executed after the lock is released and the drain
returns only with running cleared and no queued handler left behind. -/
theorem drain_loop_spec (d : Strand.Data)
    (hnn : (none : Strand.Handler) ∉ d.q) (hr : d.running = true) :
    (d.q = [] → Strand.runTx d = (none, { d with running := false }))
    ∧ (∀ h rest, d.q = h :: rest → Strand.runTx d = (h, { d with q := rest }))
    ∧ (Strand.run d).1 = d.q.reduceOption
    ∧ (Strand.run d).2 = ⟨false, []⟩ := by
  refine ⟨fun hq => by simp [Strand.runTx, hq],
          fun h rest hq => by simp [Strand.runTx, hq], ?_, ?_⟩
  · rw [Strand.run, runFrom_no_null d.q d.running hnn]
  · rw [Strand.run, runFrom_no_null d.q d.running hnn]

/-- Witness for the amended C4: draining a running strand with two real
handlers queued executes both in order and leaves the cell idle. -/
theorem drain_loop_spec_witness :
    (Strand.run ⟨true, [some 1, some 2]⟩).1 = [1, 2]
    ∧ (Strand.run ⟨true, [some 1, some 2]⟩).2 = ⟨false, []⟩ :=
  ⟨(drain_loop_spec ⟨true, [some 1, some 2]⟩ (by decide) rfl).2.2.1,
   (drain_loop_spec ⟨true, [some 1, some 2]⟩ (by decide) rfl).2.2.2⟩

/-- Claim C5: a dispatch from a thread that owns the strand — the calling
thread's registry stack for the strand tag contains this instance, so
runningInThisThread() is true — executes the handler synchronously inside
the dispatch call and leaves the state cell (running flag and pending
queue) untouched. -/
theorem dispatch_reentrant_inline (ps ss : List Nat) (pid sid : Nat)
    (h : Strand.Handler) (d : Strand.Data)
    (hcd : WorkQueue.canDispatch ps pid = true)
    (hown : Strand.runningInThisThread ss sid = true) :
    Strand.dispatch ps ss pid sid h d = ⟨Strand.execOne h, false, false, d⟩ := by
  simp [Strand.dispatch, hcd, hown]

/-- Witness for C5: a reentrant dispatch on the owning thread runs the
handler inline and does not touch the cell. -/
theorem dispatch_reentrant_inline_witness :
    Strand.dispatch [7] [3] 7 3 (some 2) ⟨true, [some 9]⟩ =
      ⟨[2], false, false, ⟨true, [some 9]⟩⟩ :=
  dispatch_reentrant_inline [7] [3] 7 3 (some 2) ⟨true, [some 9]⟩ rfl rfl

/-- Claim C6: a dispatch from a thread for which the bound executor's
canDispatch() is false behaves exactly like post: identical result (the
handler is enqueued, with a drain task pushed iff running moved false to
true) and the handler is never executed inside the call. -/
theorem dispatch_defers_to_post (ps ss : List Nat) (pid sid : Nat)
    (h : Strand.Handler) (d : Strand.Data)
    (hcd : WorkQueue.canDispatch ps pid = false) :
    Strand.dispatch ps ss pid sid h d = Strand.post h d
    ∧ (Strand.post h d).executed = []
    ∧ (Strand.post h d).pushedDrain = !d.running := by
  refine ⟨by simp [Strand.dispatch, hcd], rfl, ?_⟩
  cases hr : d.running <;> simp [Strand.post, Strand.postTx, hr]

/-- Witness for C6: dispatch from a thread outside the executor's run loop
equals post and executes nothing. -/
theorem dispatch_defers_to_post_witness :
    Strand.dispatch [] [] 7 3 (some 4) ⟨false, []⟩ = Strand.post (some 4) ⟨false, []⟩
    ∧ (Strand.post (some 4) (⟨false, []⟩ : Strand.Data)).executed = []
    ∧ (Strand.post (some 4) (⟨false, []⟩ : Strand.Data)).pushedDrain
        = !((⟨false, []⟩ : Strand.Data).running) :=
  dispatch_defers_to_post [] [] 7 3 (some 4) ⟨false, []⟩ rfl

/-- Claim C7: the observable cell states are exactly Idle (running false
and queue empty) and Owned (running true): the invariant running = false →
queue empty holds of the freshly constructed cell, is equivalent to that
two-shape formulation, and is preserved by the dispatch, post and
drain-loop transactions. -/
theorem state_shape_invariant (h : Strand.Handler) (d : Strand.Data)
    (hd : Strand.StateInv d) :
    Strand.StateInv ⟨false, []⟩
    ∧ (Strand.StateInv d ↔ (d.running = false ∧ d.q = []) ∨ d.running = true)
    ∧ Strand.StateInv (Strand.dispatchTx h d).2
    ∧ Strand.StateInv (Strand.postTx h d).2
    ∧ Strand.StateInv (Strand.runTx d).2 := by
  refine ⟨fun _ => rfl, ?_, ?_, ?_, ?_⟩
  · cases hr : d.running <;> simp [Strand.StateInv, hr]
  · cases hr : d.running <;> simp [Strand.dispatchTx, Strand.StateInv, hr]
  · cases hr : d.running <;> simp [Strand.postTx, Strand.StateInv, hr]
  · cases hq : d.q with
    | nil => simp [Strand.runTx, hq, Strand.StateInv]
    | cons h2 rest =>
      simp only [Strand.runTx, hq, Strand.StateInv]
      intro hf
      exact absurd (hq.symm.trans (hd hf)) (List.cons_ne_nil h2 rest)

/-- Witness for C7: the invariant holds after a post transaction and a
drain transaction on the idle cell. -/
theorem state_shape_invariant_witness :
    Strand.StateInv (Strand.postTx (some 0) ⟨false, []⟩).2
    ∧ Strand.StateInv (Strand.runTx ⟨false, []⟩).2 :=
  ⟨(state_shape_invariant (some 0) ⟨false, []⟩ (fun _ => rfl)).2.2.2.1,
   (state_shape_invariant (some 0) ⟨false, []⟩ (fun _ => rfl)).2.2.2.2⟩

/-- Claim C8: the WorkQueue consumer loop returns exactly when it pops the
shutdown marker, re-enqueueing one marker as it does so (a returning run
preserves the number of queued markers: it consumes one and re-enqueues
one), and stop() enqueues exactly one marker — each stop therefore
terminates one run loop, which hands termination to one more consumer. -/
theorem wq_shutdown_relay (q rest : List WorkQueue.Item) :
    WorkQueue.run (none :: rest) = some ([], rest ++ [none])
    ∧ (∀ ids q2, WorkQueue.run q = some (ids, q2) →
        (none : WorkQueue.Item) ∈ q ∧ q2.count none = q.count none)
    ∧ (WorkQueue.stop q).count none = q.count none + 1 := by
  refine ⟨rfl, ?_, ?_⟩
  · induction q with
    | nil =>
      intro ids q2 hq
      simp [WorkQueue.run] at hq
    | cons h t ih =>
      intro ids q2 hq
      cases h with
      | none =>
        simp only [WorkQueue.run, WorkQueue.push, Option.some.injEq,
          Prod.mk.injEq] at hq
        refine ⟨List.mem_cons_self none t, ?_⟩
        rw [← hq.2]
        simp [List.count_append, List.count_cons]
      | some i =>
        simp only [WorkQueue.run] at hq
        cases hrt : WorkQueue.run t with
        | none => rw [hrt] at hq; simp at hq
        | some pr =>
          obtain ⟨ids0, q0⟩ := pr
          rw [hrt] at hq
          simp only [Option.map_some', Option.some.injEq, Prod.mk.injEq] at hq
          obtain ⟨hm, hc⟩ := ih ids0 q0 hrt
          refine ⟨List.mem_cons_of_mem _ hm, ?_⟩
          rw [← hq.2]
          simpa [List.count_cons] using hc
  · simp [WorkQueue.stop, WorkQueue.push, List.count_append]

/-- Witness for C8: a run over one real item followed by the marker returns
having executed the item, leaving the re-enqueued marker for the next
consumer. -/
theorem wq_shutdown_relay_witness :
    (none : WorkQueue.Item) ∈ ([some 5, none] : List WorkQueue.Item)
    ∧ ([none] : List WorkQueue.Item).count none
        = ([some 5, none] : List WorkQueue.Item).count none :=
  (wq_shutdown_relay [some 5, none] []).2.1 [5] [none] (by decide)

/-- Claim C9: every state-cell transaction performed from inside the drain
loop observes running = true — the transition system only lets a thread
enter the drain after transitioning running from false to true (dispatch
claim or the drain task pushed by the triggering post), and nobody else
clears ownership — so assert(data.running) in Strand::run never fails in
any reachable state. -/
theorem drain_assert_never_fails (W : Nat → Bool) (s : Sched.S) (t : Nat)
    (hs : Sched.Reach W s) (ht : s.phase t = Sched.Phase.drainLoop) :
    s.running = true :=
  running_true_of_engaged (reach_inv hs) (by rw [ht]; decide)

/-- Witness for C9: in the reachable state where a posted handler's drain
task has been picked up by worker thread 0, the running flag is observed
true. -/
theorem drain_assert_never_fails_witness :
    ({ running := true,
       q := [true],
       drainTasks := 0,
       phase := Sched.upd Sched.init.phase 0 Sched.Phase.drainLoop } :
      Sched.S).running = true :=
  drain_assert_never_fails (fun _ => true) _ 0
    (Sched.Reach.step
      (Sched.Reach.step Sched.Reach.init (Sched.Step.postTrig Sched.init true rfl))
      (Sched.Step.startDrain
        ({ Sched.init with
            running := true,
            q := Sched.init.q ++ [true],
            drainTasks := Sched.init.drainTasks + 1 } : Sched.S)
        0 rfl rfl (by decide)))
    (upd_self Sched.init.phase 0 Sched.Phase.drainLoop)

/-- Claim C10: an empty std::function that reaches the front of the pending
queue is popped but not invoked; the drain returns immediately with running
still true and the later-queued handlers left unexecuted; and thereafter
every post observes running = true and never pushes a new drain task, so
the strand is permanently stuck. -/
theorem null_handler_wedges_strand (rest : List Strand.Handler)
    (h : Strand.Handler) (d : Strand.Data) (hr : d.running = true) :
    Strand.run ⟨true, none :: rest⟩ = ([], ⟨true, rest⟩)
    ∧ (Strand.postTx h d).1 = false
    ∧ (Strand.post h d).pushedDrain = false := by
  refine ⟨rfl, ?_, ?_⟩ <;> simp [Strand.postTx, Strand.post, hr]

/-- Witness for C10: popping the null handler strands the queued handler 3,
and a later post of handler 4 does not trigger a new drain. -/
theorem null_handler_wedges_strand_witness :
    Strand.run ⟨true, [none, some 3]⟩ = ([], ⟨true, [some 3]⟩)
    ∧ (Strand.postTx (some 4) ⟨true, [some 3]⟩).1 = false
    ∧ (Strand.post (some 4) (⟨true, [some 3]⟩ : Strand.Data)).pushedDrain = false :=
  null_handler_wedges_strand [some 3] (some 4) ⟨true, [some 3]⟩ rfl

end StrandSandbox
